import Mathlib

/-!
# Screen colour picker (`color_picker.cpp`)

A shallow embedding of the colour picker: the hex formatter `rgb_to_hex`, the
platform variants of the pixel sampler, the hotkey detector and the clipboard
writer, the pick handler `on_hotkey_press` and the polling loop
`monitor_hotkey`, followed by the properties established about them.

Conventions.
* A C++ `int` is an `Int`; where the 32-bit representation matters it is taken
  modulo `2 ^ 32` explicitly.
* Text is a `String`; the formatted digits are built as `List Char`.
* Effectful functions return a `Proc`: the list of effects performed, in order,
  and the returned value, or `none` once `exit` has been called.
-/

namespace ColorPicker

/-! ## Hex formatter (`rgb_to_hex`, lines 22-28) -/

/-- The digits that a stream in `std::hex` mode (without `std::uppercase`) writes
for an unsigned value: base 16, most significant digit first, lowercase, a single
`0` for zero. -/
def hex_digits (u : Nat) : List Char :=
  if u = 0 then ['0'] else ((Nat.digits 16 u).reverse).map Nat.digitChar

/-- Field padding of a stream insertion: with the default right adjustment the
fill character is inserted on the left until the field is `w` wide; a longer
field is written unchanged. -/
def pad_left (w : Nat) (fill : Char) (s : List Char) : List Char :=
  List.replicate (w - s.length) fill ++ s

/-- The insertion `<< std::setw(2) << std::setfill('0') << std::hex << v` for an
`int v`: in hex mode the value is written as the unsigned 32-bit number with the
same representation. -/
def put_hex (v : Int) : List Char :=
  pad_left 2 '0' (hex_digits (v % 2 ^ 32).toNat)

/-- The function `rgb_to_hex`: a `#`, then the three channels, each inserted with
width 2, fill `0`, base 16. -/
def rgb_to_hex (r g b : Int) : String :=
  String.mk ('#' :: (put_hex r ++ put_hex g ++ put_hex b))

/-! ### Reference definitions used to state the formatter's contract -/

/-- The lowercase hexadecimal digit of a value below 16. -/
def lower_hex_digit (d : Nat) : Char :=
  "0123456789abcdef".data.getD d '?'

/-- The two-digit, zero-padded, lowercase hexadecimal form of a byte. -/
def two_digit_lower_hex (n : Nat) : List Char :=
  [lower_hex_digit (n / 16), lower_hex_digit (n % 16)]

/-- The value of a hexadecimal digit, of either case. -/
def hex_digit_value (c : Char) : Option Nat :=
  if '0' ≤ c ∧ c ≤ '9' then some (c.toNat - '0'.toNat)
  else if 'a' ≤ c ∧ c ≤ 'f' then some (c.toNat - 'a'.toNat + 10)
  else if 'A' ≤ c ∧ c ≤ 'F' then some (c.toNat - 'A'.toNat + 10)
  else none

/-- Reading a string of hexadecimal digits as a base-16 number, most significant
digit first; `none` when a character is not a hexadecimal digit. -/
def parse_hex (s : List Char) : Option Nat :=
  s.foldl (fun acc c => acc.bind fun a => (hex_digit_value c).map fun d => 16 * a + d) (some 0)

/-- The characters at positions `i` and `i + 1` of a string. -/
def two_chars_at (s : String) (i : Nat) : List Char :=
  (s.data.drop i).take 2

/-- The key-down flag of a key state: its `0x8000` bit. -/
def key_down (k : Nat) : Bool :=
  k.testBit 15

/-! ## Effects and processes -/

/-- The externally visible actions of the program. -/
inductive Effect where
  /-- Text inserted into `std::cout`. -/
  | cout (s : String)
  /-- Text inserted into `std::cerr`. -/
  | cerr (s : String)
  /-- A call of `XOpenDisplay(NULL)`; `ok` tells whether it returned a display. -/
  | XOpenDisplay (ok : Bool)
  /-- A call of `EmptyClipboard()` on the opened clipboard. -/
  | EmptyClipboard
  /-- A call of `SetClipboardData(CF_TEXT, h)`; `mem` is the content of the block `h`. -/
  | SetClipboardData (mem : List Char)
  /-- A call of `system(cmd)`. -/
  | system (cmd : String)
  /-- A call of `on_hotkey_press()` whose own effects are left abstract. -/
  | pick
  /-- A call of `std::this_thread::sleep_for(std::chrono::milliseconds(ms))`. -/
  | sleep_for (ms : Nat)
  /-- A call of `exit(code)`. -/
  | exit (code : Int)
  deriving DecidableEq

/-- A run of an effectful function: the effects performed, in order, and the value
returned; the result is `none` when the run ended in `exit`, which does not return. -/
structure Proc (α : Type) where
  trace : List Effect
  result : Option α

namespace Proc

/-- Return a value without any effect. -/
def ret {α : Type} (a : α) : Proc α := ⟨[], some a⟩

/-- Perform one effect and continue. -/
def emit (e : Effect) : Proc Unit := ⟨[e], some ()⟩

/-- Call `exit(code)`: the process terminates, nothing after it runs. -/
def exit {α : Type} (code : Int) : Proc α := ⟨[Effect.exit code], none⟩

/-- Sequencing: the second part runs only if the first has not exited. -/
def bind {α β : Type} (p : Proc α) (f : α → Proc β) : Proc β :=
  match p.result with
  | none => ⟨p.trace, none⟩
  | some a => ⟨p.trace ++ (f a).trace, (f a).result⟩

end Proc

instance : Monad Proc where
  pure := Proc.ret
  bind := Proc.bind

/-- Everything written to standard output, concatenated. -/
def stdout_text : List Effect → String
  | [] => ""
  | Effect.cout s :: es => s ++ stdout_text es
  | _ :: es => stdout_text es

/-- Everything written to standard error, concatenated. -/
def stderr_text : List Effect → String
  | [] => ""
  | Effect.cerr s :: es => s ++ stderr_text es
  | _ :: es => stderr_text es

/-- The commands passed to `system`, in order. -/
def system_calls : List Effect → List String
  | [] => []
  | Effect.system cmd :: es => cmd :: system_calls es
  | _ :: es => system_calls es

/-- Total time requested from `sleep_for`, in milliseconds. -/
def slept : List Effect → Nat
  | [] => 0
  | Effect.sleep_for ms :: es => ms + slept es
  | _ :: es => slept es

/-- The NUL character that terminates a C string. -/
def NUL : Char := Char.ofNat 0

/-- The text of a block of characters read as a C string: everything before the
first NUL. -/
def c_string (mem : List Char) : List Char :=
  mem.takeWhile (fun c => c != NUL)

/-- The text on the Windows clipboard after a run, given the text before it:
`EmptyClipboard` removes it, `SetClipboardData(CF_TEXT, h)` sets it to the C string
stored in the block. -/
def clipboard_after : Option String → List Effect → Option String
  | cb, [] => cb
  | _, Effect.EmptyClipboard :: es => clipboard_after none es
  | _, Effect.SetClipboardData mem :: es => clipboard_after (some (String.mk (c_string mem))) es
  | cb, _ :: es => clipboard_after cb es

/-! ## Pixel sampler (`get_pixel_color`) -/

/-- Modelled from the spec: the Windows SDK macro `GetRValue`, absent from the
sources; it takes the low byte of a `COLORREF`. -/
def GetRValue (rgb : Nat) : Nat := rgb &&& 0xFF

/-- Modelled from the spec: the Windows SDK macro `GetGValue`, absent from the
sources; it takes the second byte of a `COLORREF`. -/
def GetGValue (rgb : Nat) : Nat := (rgb >>> 8) &&& 0xFF

/-- Modelled from the spec: the Windows SDK macro `GetBValue`, absent from the
sources; it takes the third byte of a `COLORREF`. -/
def GetBValue (rgb : Nat) : Nat := (rgb >>> 16) &&& 0xFF

/-- What the Windows variant reads from the operating system during one pick. -/
structure WinEnv where
  /-- The position that `GetCursorPos` stores, `none` when the call fails. -/
  cursor : Option (Int × Int)
  /-- The `COLORREF` that `GetPixel` returns for a screen position. -/
  screen : Int → Int → Nat
  /-- Whether `OpenClipboard(NULL)` succeeds. -/
  clipboard_opens : Bool

/-- Windows `get_pixel_color` (lines 34-39): the 32-bit `COLORREF` of the pixel. -/
def get_pixel_color_win (env : WinEnv) (x y : Int) : Proc Nat :=
  pure (env.screen x y % 2 ^ 32)

/-- The arithmetic of Linux `get_pixel_color` (lines 53-59) on the value `pixel`
that `XGetPixel` returns: three masked channels, repacked. -/
def pack_pixel_linux (pixel : Nat) : Nat :=
  let r := (pixel &&& 0xFF0000) >>> 16
  let g := (pixel &&& 0x00FF00) >>> 8
  let b := pixel &&& 0x0000FF
  (r <<< 16) ||| (g <<< 8) ||| b

/-- What the Linux variant reads from the X server and the system during one
iteration of the monitor loop. -/
structure X11Env where
  /-- Whether `XOpenDisplay` succeeds inside `is_hotkey_pressed`. -/
  hotkey_display : Bool
  /-- The key code `XKeysymToKeycode(display, XK_C)`. -/
  keycode_C : Nat
  /-- The field `ev.xkey.keycode` of the event that `XNextEvent` delivers. -/
  event_keycode : Nat
  /-- The position that `GetCursorPos` stores, `none` when the call fails. -/
  cursor : Option (Int × Int)
  /-- Whether `XOpenDisplay` succeeds inside `get_pixel_color`. -/
  pixel_display : Bool
  /-- The value `XGetPixel` returns for the 1x1 image taken at a screen position. -/
  pixel : Int → Int → Nat

/-- Linux `get_pixel_color` (lines 44-60). -/
def get_pixel_color_linux (env : X11Env) (x y : Int) : Proc Nat := do
  Proc.emit (Effect.XOpenDisplay env.pixel_display)
  if env.pixel_display = false then
    Proc.emit (Effect.cerr ("Cannot open display" ++ "\n"))
    Proc.exit 1
  else
    pure (pack_pixel_linux (env.pixel x y))

/-! ## Clipboard writer (`copy_to_clipboard`) -/

/-- Windows `copy_to_clipboard` (lines 82-91): when the clipboard opens it is
emptied and a block holding the `size() + 1` characters of `c_str()`, that is the
text and its terminating NUL, is set as `CF_TEXT`; when it does not open nothing is
done. `GlobalAlloc` and `GlobalLock` are taken to succeed. -/
def copy_to_clipboard_win (env : WinEnv) (hex_color : String) : Proc Unit :=
  if env.clipboard_opens then do
    Proc.emit Effect.EmptyClipboard
    Proc.emit (Effect.SetClipboardData (hex_color.data ++ [NUL]))
  else
    pure ()

/-- The command line that Linux `copy_to_clipboard` builds (line 94). -/
def clipboard_command_linux (hex_color : String) : String :=
  "echo " ++ hex_color ++ " | xclip -selection clipboard"

/-- The command line that macOS `copy_to_clipboard` builds (line 99). -/
def clipboard_command_macos (hex_color : String) : String :=
  "echo " ++ hex_color ++ " | pbcopy"

/-- Linux `copy_to_clipboard` (lines 93-96). -/
def copy_to_clipboard_linux (hex_color : String) : Proc Unit :=
  Proc.emit (Effect.system (clipboard_command_linux hex_color))

/-- The macOS `copy_to_clipboard` (lines 98-101). -/
def copy_to_clipboard_macos (hex_color : String) : Proc Unit :=
  Proc.emit (Effect.system (clipboard_command_macos hex_color))

/-! ### The shell's view of a command line -/

/-- State of the shell's token recognition. -/
inductive LexState where
  /-- A new token may start here. -/
  | start
  /-- Inside a word. -/
  | word
  /-- Inside a comment. -/
  | comment
  deriving DecidableEq

/-- Characters that end a word in the POSIX shell: blanks, newline and the
operator characters. -/
def shell_delimiter (c : Char) : Bool :=
  c = ' ' || c = '\t' || c = '\n' || c = '|' || c = '&' || c = ';' || c = '<' || c = '>' ||
    c = '(' || c = ')'

/-- Comment removal of the POSIX shell's token recognition, for a command line
without quoting: a `#` where a new token would start, and everything after it up to
but excluding the next newline, is discarded. -/
def shell_strip_comments : LexState → List Char → List Char
  | _, [] => []
  | LexState.comment, c :: cs =>
      if c = '\n' then c :: shell_strip_comments LexState.start cs
      else shell_strip_comments LexState.comment cs
  | LexState.start, c :: cs =>
      if c = '#' then shell_strip_comments LexState.comment cs
      else c :: shell_strip_comments (if shell_delimiter c then LexState.start else LexState.word) cs
  | LexState.word, c :: cs =>
      c :: shell_strip_comments (if shell_delimiter c then LexState.start else LexState.word) cs

/-- The command line the shell executes for `system(cmd)`. -/
def shell_effective_command (cmd : String) : String :=
  String.mk (shell_strip_comments LexState.start cmd.data)

/-! ## Hotkey detector (`is_hotkey_pressed`) -/

/-- Integral promotion of a `SHORT` with 16-bit pattern `k` to `int`, as a 32-bit
pattern: sign extension. -/
def short_to_int (k : Nat) : Nat :=
  if k % 2 ^ 16 < 2 ^ 15 then k % 2 ^ 16 else k % 2 ^ 16 + (2 ^ 32 - 2 ^ 16)

/-- Windows `is_hotkey_pressed` (lines 107-111) on the values that
`GetAsyncKeyState` returns for `VK_CONTROL`, `VK_MENU` and `0x43`. -/
def is_hotkey_pressed_win (ctrl alt c : Nat) : Bool :=
  (short_to_int ctrl &&& 0x8000 != 0) &&
    (short_to_int alt &&& 0x8000 != 0) &&
    (short_to_int c &&& 0x8000 != 0)

/-- Linux `is_hotkey_pressed` (lines 113-128). -/
def is_hotkey_pressed_linux (env : X11Env) : Proc Bool := do
  Proc.emit (Effect.XOpenDisplay env.hotkey_display)
  if env.hotkey_display = false then
    Proc.emit (Effect.cerr ("Cannot open X display!" ++ "\n"))
    Proc.exit 1
  else
    let keyPressed := decide (env.event_keycode = env.keycode_C)
    pure keyPressed

/-! ## Pick handler (`on_hotkey_press`, lines 141-167) -/

/-- The function `on_hotkey_press`, over the platform's `GetCursorPos` result,
`get_pixel_color` and `copy_to_clipboard`. -/
def on_hotkey_press (cursor : Option (Int × Int)) (get_pixel_color : Int → Int → Proc Nat)
    (copy_to_clipboard : String → Proc Unit) : Proc Unit :=
  match cursor with
  | some (x, y) => do
      let color ← get_pixel_color x y
      let r : Int := GetRValue color
      let g : Int := GetGValue color
      let b : Int := GetBValue color
      let hex_color := rgb_to_hex r g b
      Proc.emit (Effect.cout ("\nColor Grabbed" ++ "\n"))
      Proc.emit (Effect.cout ("Coordinates: X = " ++ toString x ++ ", Y = " ++ toString y ++ "\n"))
      Proc.emit (Effect.cout ("HEX: " ++ hex_color ++ "\n"))
      Proc.emit (Effect.cout
        ("RGB: " ++ toString r ++ ", " ++ toString g ++ ", " ++ toString b ++ "\n"))
      copy_to_clipboard hex_color
  | none => pure ()

/-- The Windows build of `on_hotkey_press`. -/
def on_hotkey_press_win (env : WinEnv) : Proc Unit :=
  on_hotkey_press env.cursor (get_pixel_color_win env) (copy_to_clipboard_win env)

/-- The Linux build of `on_hotkey_press`. -/
def on_hotkey_press_linux (env : X11Env) : Proc Unit :=
  on_hotkey_press env.cursor (get_pixel_color_linux env) copy_to_clipboard_linux

/-! ## Monitor loop (`monitor_hotkey`, lines 170-178) -/

/-- One iteration of the `while (true)` loop of `monitor_hotkey`. -/
def monitor_iteration (is_hotkey_pressed : Proc Bool) (on_hotkey_press : Proc Unit) :
    Proc Unit := do
  let pressed ← is_hotkey_pressed
  if pressed then
    on_hotkey_press
    Proc.emit (Effect.sleep_for 300)
  Proc.emit (Effect.sleep_for 10)

/-- One iteration of the Windows build, on the key states that `GetAsyncKeyState`
reports during it. -/
def monitor_iteration_win (env : WinEnv) (ctrl alt c : Nat) : Proc Unit :=
  monitor_iteration (pure (is_hotkey_pressed_win ctrl alt c)) (on_hotkey_press_win env)

/-- One iteration of the Linux build. -/
def monitor_iteration_linux (env : X11Env) : Proc Unit :=
  monitor_iteration (is_hotkey_pressed_linux env) (on_hotkey_press_linux env)

/-- The first `fuel` iterations of `monitor_hotkey` on a clock that starts at `now`
(milliseconds) and advances only in `sleep_for`, by the time requested. The detector
and the handler are given the clock value at which they run. The result lists, for
every iteration, its starting time and its effects; the loop stops early only if an
iteration exits. -/
def monitor_hotkey (is_hotkey_pressed : Nat → Proc Bool) (on_hotkey_press : Nat → Proc Unit) :
    Nat → Nat → List (Nat × List Effect)
  | 0, _ => []
  | fuel + 1, now =>
      let it := monitor_iteration (is_hotkey_pressed now) (on_hotkey_press now)
      (now, it.trace) ::
        (match it.result with
         | none => []
         | some _ => monitor_hotkey is_hotkey_pressed on_hotkey_press fuel (now + slept it.trace))

/-- A level-triggered detector over a timeline of the hotkey state: it reports
whether the combination is held at the instant of the call. -/
def level_detector (held : Nat → Bool) (now : Nat) : Proc Bool :=
  pure (held now)

/-- A pick handler reduced to the fact that it was called. -/
def pick_handler (_now : Nat) : Proc Unit :=
  Proc.emit Effect.pick

/-- The instants at which `on_hotkey_press` was called during a run. -/
def pick_times (run : List (Nat × List Effect)) : List Nat :=
  (run.filter fun it => it.2.contains Effect.pick).map Prod.fst

/-- The number of calls of `on_hotkey_press` made at instants in `[t1, t2]`. -/
def picks_within (t1 t2 : Nat) (run : List (Nat × List Effect)) : Nat :=
  ((pick_times run).filter fun t => decide (t1 ≤ t ∧ t ≤ t2)).length

/-- The timeline in which the hotkey is held at the instants 3 and 5 only. -/
def tap_timeline (t : Nat) : Bool :=
  t = 3 || t = 5

/-! ### Lemmas on the formatter -/

theorem digitChar_eq_lower_hex_digit (d : Nat) (h : d < 16) :
    Nat.digitChar d = lower_hex_digit d := by
  interval_cases d <;> rfl

theorem hex_digit_value_lower_hex_digit (d : Nat) (h : d < 16) :
    hex_digit_value (lower_hex_digit d) = some d := by
  interval_cases d <;> rfl

theorem hex_digits_of_lt_16 (u : Nat) (h : u < 16) :
    hex_digits u = [Nat.digitChar u] := by
  unfold hex_digits
  split
  · subst u; rfl
  · rename_i h0
    rw [Nat.digits_of_lt 16 u h0 h]
    rfl

theorem hex_digits_of_lt_256 (u : Nat) (h1 : 16 ≤ u) (h2 : u < 256) :
    hex_digits u = [Nat.digitChar (u / 16), Nat.digitChar (u % 16)] := by
  unfold hex_digits
  have h0 : u ≠ 0 := by omega
  have hq0 : u / 16 ≠ 0 := by omega
  have hq : u / 16 < 16 := by omega
  rw [if_neg h0, Nat.digits_def' (by norm_num) (by omega), Nat.digits_of_lt 16 (u / 16) hq0 hq]
  rfl

theorem pad_left_length (w : Nat) (fill : Char) (s : List Char) :
    (pad_left w fill s).length = max w s.length := by
  simp [pad_left]
  omega

/-- A channel in `[0, 255]` is written as its two-digit lowercase hex form. -/
theorem put_hex_byte (v : Int) (h0 : 0 ≤ v) (h1 : v ≤ 255) :
    put_hex v = two_digit_lower_hex v.toNat := by
  obtain ⟨n, rfl⟩ := Int.eq_ofNat_of_zero_le h0
  have hn : n < 256 := by omega
  have hmod : ((n : Int) % 2 ^ 32).toNat = n := by omega
  simp only [put_hex, hmod, Int.toNat_ofNat, two_digit_lower_hex]
  rw [← digitChar_eq_lower_hex_digit (n / 16) (by omega),
    ← digitChar_eq_lower_hex_digit (n % 16) (by omega)]
  by_cases h16 : n < 16
  · rw [hex_digits_of_lt_16 n h16]
    have hd : n / 16 = 0 := by omega
    have hm : n % 16 = n := by omega
    rw [hd, hm]
    rfl
  · rw [hex_digits_of_lt_256 n (by omega) hn]
    rfl

/-- A value of at least `16 ^ k` has more than `k` hex digits. -/
theorem hex_digits_length_gt (u k : Nat) (h : 16 ^ k ≤ u) : k < (hex_digits u).length := by
  have h0 : u ≠ 0 := by
    have := Nat.pos_pow_of_pos k (show 0 < 16 by norm_num)
    omega
  unfold hex_digits
  rw [if_neg h0]
  simp only [List.length_map, List.length_reverse]
  have h1 : u < 16 ^ (Nat.digits 16 u).length := Nat.lt_base_pow_length_digits (by norm_num)
  exact (Nat.pow_lt_pow_iff_right (by norm_num)).mp (lt_of_le_of_lt h h1)

/-- A value below `16 ^ k` (with `k ≥ 1`) has at most `k` hex digits. -/
theorem hex_digits_length_le (u k : Nat) (hk : 1 ≤ k) (h : u < 16 ^ k) :
    (hex_digits u).length ≤ k := by
  unfold hex_digits
  split
  · simpa using hk
  · rename_i h0
    simp only [List.length_map, List.length_reverse]
    have h1 : 16 ^ (Nat.digits 16 u).length ≤ 16 * u :=
      Nat.base_pow_length_digits_le 16 u (by norm_num) h0
    have h2 : 16 ^ (Nat.digits 16 u).length < 16 ^ (k + 1) := by
      rw [pow_succ]
      omega
    have := (Nat.pow_lt_pow_iff_right (show 1 < 16 by norm_num)).mp h2
    omega

theorem put_hex_length (v : Int) :
    (put_hex v).length = max 2 (hex_digits (v % 2 ^ 32).toNat).length := by
  simp [put_hex, pad_left_length]

theorem rgb_to_hex_length (r g b : Int) :
    (rgb_to_hex r g b).length =
      1 + (put_hex r).length + (put_hex g).length + (put_hex b).length := by
  simp [rgb_to_hex, String.length]
  omega

/-- The field written for a 32-bit `int` is two characters wide exactly when the
value is in `[0, 255]`, and never narrower. -/
theorem put_hex_length_eq_two_iff (v : Int) (hlo : -2 ^ 31 ≤ v) (hhi : v < 2 ^ 31) :
    2 ≤ (put_hex v).length ∧ ((put_hex v).length = 2 ↔ 0 ≤ v ∧ v ≤ 255) := by
  rw [put_hex_length]
  refine ⟨le_max_left _ _, ?_⟩
  constructor
  · intro hlen
    by_contra hcon
    have hu : 16 ^ 2 ≤ (v % 2 ^ 32).toNat := by
      norm_num
      omega
    have := hex_digits_length_gt _ 2 hu
    omega
  · rintro ⟨h0, h1⟩
    have hu : (v % 2 ^ 32).toNat < 16 ^ 2 := by
      norm_num
      omega
    have := hex_digits_length_le _ 2 (by norm_num) hu
    omega

theorem parse_hex_two_digit (n : Nat) (h : n < 256) :
    parse_hex (two_digit_lower_hex n) = some n := by
  have h1 := hex_digit_value_lower_hex_digit (n / 16) (by omega)
  have h2 := hex_digit_value_lower_hex_digit (n % 16) (by omega)
  simp only [parse_hex, two_digit_lower_hex, List.foldl, Option.bind, h1, h2, Option.map]
  congr 1
  omega

/-- On channels in `[0, 255]` the formatter writes `#` and three two-digit fields. -/
theorem rgb_to_hex_bytes (r g b : Int) (hr0 : 0 ≤ r) (hr : r ≤ 255) (hg0 : 0 ≤ g)
    (hg : g ≤ 255) (hb0 : 0 ≤ b) (hb : b ≤ 255) :
    rgb_to_hex r g b = String.mk ('#' :: (two_digit_lower_hex r.toNat ++
      two_digit_lower_hex g.toNat ++ two_digit_lower_hex b.toNat)) := by
  simp only [rgb_to_hex, put_hex_byte r hr0 hr, put_hex_byte g hg0 hg, put_hex_byte b hb0 hb]

/-- A negative 32-bit channel is written as the eight hex digits of its two's
complement value. -/
theorem put_hex_negative (v : Int) (hlo : -2 ^ 31 ≤ v) (hneg : v < 0) :
    put_hex v = hex_digits (v + 2 ^ 32).toNat ∧ (put_hex v).length = 8 := by
  have hmod : v % 2 ^ 32 = v + 2 ^ 32 := by omega
  have h7 : 16 ^ 7 ≤ (v + 2 ^ 32).toNat := by
    norm_num
    omega
  have h8 : (v + 2 ^ 32).toNat < 16 ^ 8 := by
    norm_num
    omega
  have hgt := hex_digits_length_gt _ 7 h7
  have hle := hex_digits_length_le _ 8 (by norm_num) h8
  have hlen : (hex_digits (v + 2 ^ 32).toNat).length = 8 := by omega
  refine ⟨?_, ?_⟩
  · unfold put_hex pad_left
    rw [hmod, hlen]
    rfl
  · rw [put_hex_length, hmod, hlen]
    rfl

/-! ## Lemmas on characters, bits and processes -/

theorem put_hex_chars (v : Int) : ∀ c ∈ put_hex v, c ∈ "0123456789abcdef".data := by
  intro c hc
  unfold put_hex pad_left at hc
  rcases List.mem_append.mp hc with h | h
  · rw [(List.mem_replicate.mp h).2]
    decide
  · unfold hex_digits at h
    split at h
    · rw [List.mem_singleton.mp h]
      decide
    · obtain ⟨d, hd, rfl⟩ := List.mem_map.mp h
      have hlt : d < 16 := Nat.digits_lt_base (by norm_num) (List.mem_reverse.mp hd)
      interval_cases d <;> decide

/-- Every character of a formatted colour is `#` or a lowercase hex digit. -/
theorem rgb_to_hex_chars (r g b : Int) :
    ∀ c ∈ (rgb_to_hex r g b).data, c ∈ "#0123456789abcdef".data := by
  intro c hc
  simp only [rgb_to_hex, List.mem_cons, List.mem_append] at hc
  have up : ∀ c, c ∈ "0123456789abcdef".data → c ∈ "#0123456789abcdef".data := by
    intro c h
    exact List.mem_cons_of_mem _ h
  rcases hc with h | (h | h) | h
  · rw [h]
    decide
  · exact up c (put_hex_chars r c h)
  · exact up c (put_hex_chars g c h)
  · exact up c (put_hex_chars b c h)

theorem c_string_append_NUL (s : List Char) (h : ∀ c ∈ s, c ≠ NUL) :
    c_string (s ++ [NUL]) = s := by
  induction s with
  | nil => simp [c_string, List.takeWhile]
  | cons a t ih =>
      have ha : a ≠ NUL := h a (List.mem_cons_self _ _)
      have ht : ∀ c ∈ t, c ≠ NUL := fun c hc => h c (List.mem_cons_of_mem _ hc)
      have := ih ht
      have hb : (a != NUL) = true := by simpa using ha
      simp only [c_string] at this ⊢
      rw [List.cons_append, List.takeWhile_cons, hb, if_pos rfl, this]

/-- The C string stored for a formatted colour is the formatted colour. -/
theorem c_string_rgb_to_hex (r g b : Int) :
    String.mk (c_string ((rgb_to_hex r g b).data ++ [NUL])) = rgb_to_hex r g b := by
  rw [c_string_append_NUL]
  intro c hc
  have hmem := rgb_to_hex_chars r g b c hc
  have hall : ∀ c ∈ "#0123456789abcdef".data, c ≠ NUL := by decide
  exact hall c hmem

theorem and_two_pow_bne_zero (x n : Nat) : (x &&& 2 ^ n != 0) = x.testBit n := by
  cases h : x.testBit n
  · have : x &&& 2 ^ n = 0 := by
      apply Nat.eq_of_testBit_eq
      intro i
      rw [Nat.testBit_and, Nat.testBit_two_pow, Nat.zero_testBit]
      by_cases hi : n = i
      · subst hi; simp [h]
      · simp [hi]
    simp [this]
  · have ht : (x &&& 2 ^ n).testBit n = true := by
      rw [Nat.testBit_and, Nat.testBit_two_pow_self, h]; rfl
    have : x &&& 2 ^ n ≠ 0 := by
      intro h0
      rw [h0, Nat.zero_testBit] at ht
      exact Bool.noConfusion ht
    simpa using this

/-- Sign extension keeps bit 15 of a 16-bit value. -/
theorem short_to_int_testBit (k : Nat) (h : k < 2 ^ 16) :
    (short_to_int k).testBit 15 = k.testBit 15 := by
  have hk : k % 2 ^ 16 = k := Nat.mod_eq_of_lt h
  unfold short_to_int
  rw [hk, Nat.testBit_to_div_mod, Nat.testBit_to_div_mod]
  split
  · rfl
  · have e : (k + (2 ^ 32 - 2 ^ 16)) / 2 ^ 15 % 2 = k / 2 ^ 15 % 2 := by omega
    rw [e]

theorem key_test (k : Nat) (h : k < 2 ^ 16) :
    (short_to_int k &&& 0x8000 != 0) = key_down k := by
  have e : (0x8000 : Nat) = 2 ^ 15 := by decide
  rw [e, and_two_pow_bne_zero, short_to_int_testBit k h]
  rfl

theorem mask_ff_testBit (x i : Nat) :
    (x &&& 0xFF).testBit i = (decide (i < 8) && x.testBit i) := by
  have : (0xFF : Nat) = 2 ^ 8 - 1 := by decide
  rw [this, Nat.testBit_and, Nat.testBit_two_pow_sub_one, Bool.and_comm]

theorem byte_testBit (x s i : Nat) :
    ((x >>> s) &&& 0xFF).testBit i = (decide (i < 8) && x.testBit (s + i)) := by
  rw [mask_ff_testBit, Nat.testBit_shiftRight]

theorem mask_shift_testBit (x s i : Nat) :
    (x &&& (0xFF <<< s)).testBit i = (decide (s ≤ i ∧ i < s + 8) && x.testBit i) := by
  have : (0xFF : Nat) = 2 ^ 8 - 1 := by decide
  rw [this, Nat.testBit_and, Nat.testBit_shiftLeft, Nat.testBit_two_pow_sub_one, Bool.and_comm]
  by_cases h1 : s ≤ i
  · by_cases h2 : i < s + 8
    · have : i - s < 8 := by omega
      simp [h1, h2, this]
    · have : ¬ i - s < 8 := by omega
      simp [h1, h2, this]
  · simp [h1]

/-- Linux `get_pixel_color` returns the low 24 bits of the X11 pixel unchanged. -/
theorem pack_pixel_linux_eq (p : Nat) : pack_pixel_linux p = p &&& 0xFFFFFF := by
  have e1 : (0xFF0000 : Nat) = 0xFF <<< 16 := by decide
  have e2 : (0x00FF00 : Nat) = 0xFF <<< 8 := by decide
  have e3 : (0xFFFFFF : Nat) = 2 ^ 24 - 1 := by decide
  apply Nat.eq_of_testBit_eq
  intro i
  simp only [pack_pixel_linux]
  rw [e1, e2, e3, Nat.testBit_or, Nat.testBit_or, Nat.testBit_shiftLeft, Nat.testBit_shiftLeft,
    Nat.testBit_shiftRight, Nat.testBit_shiftRight, mask_shift_testBit, mask_shift_testBit,
    mask_ff_testBit, Nat.testBit_and, Nat.testBit_two_pow_sub_one]
  by_cases h16 : 16 ≤ i
  · have a1 : 16 + (i - 16) = i := by omega
    have a2 : ¬ i < 8 := by omega
    have a3 : 8 + (i - 8) = i := by omega
    have a4 : ¬ i < 16 := by omega
    have a5 : 8 ≤ i := by omega
    by_cases h24 : i < 24 <;> simp [h16, h24, a1, a2, a3, a4, a5]
  · by_cases h8 : 8 ≤ i
    · have a1 : 8 + (i - 8) = i := by omega
      have a2 : ¬ i < 8 := by omega
      have a4 : i < 24 := by omega
      have a5 : i < 16 := by omega
      simp [h16, h8, a1, a2, a4, a5]
    · have a2 : i < 8 := by omega
      have a4 : i < 24 := by omega
      simp [h16, h8, a2, a4]

/-- A byte of the low 24 bits is the same byte of the whole value. -/
theorem byte_of_low24 (p s : Nat) (hs : s + 8 ≤ 24) :
    ((p &&& 0xFFFFFF) >>> s) &&& 0xFF = (p >>> s) &&& 0xFF := by
  have e3 : (0xFFFFFF : Nat) = 2 ^ 24 - 1 := by decide
  apply Nat.eq_of_testBit_eq
  intro i
  rw [byte_testBit, byte_testBit, e3, Nat.testBit_and, Nat.testBit_two_pow_sub_one]
  by_cases h : i < 8
  · have : s + i < 24 := by omega
    simp [h, this]
  · simp [h]

theorem slept_append (a b : List Effect) : slept (a ++ b) = slept a + slept b := by
  induction a with
  | nil => simp [slept]
  | cons e t ih =>
      cases e <;> simp [slept, ih]
      omega

/-- The run of `on_hotkey_press` when the cursor position is read and the pixel
sampler returns `color`. -/
theorem on_hotkey_press_run (x y : Int) (gp : Int → Int → Proc Nat)
    (cp : String → Proc Unit) (pre : List Effect) (color : Nat)
    (hgp : gp x y = ⟨pre, some color⟩) :
    on_hotkey_press (some (x, y)) gp cp =
      ⟨pre ++ ([Effect.cout "\nColor Grabbed\n",
          Effect.cout ("Coordinates: X = " ++ toString x ++ ", Y = " ++ toString y ++ "\n"),
          Effect.cout ("HEX: " ++
            rgb_to_hex (GetRValue color) (GetGValue color) (GetBValue color) ++ "\n"),
          Effect.cout ("RGB: " ++ toString (GetRValue color : Int) ++ ", " ++
            toString (GetGValue color : Int) ++ ", " ++ toString (GetBValue color : Int) ++ "\n")] ++
          (cp (rgb_to_hex (GetRValue color) (GetGValue color) (GetBValue color))).trace),
        (cp (rgb_to_hex (GetRValue color) (GetGValue color) (GetBValue color))).result⟩ := by
  simp only [on_hotkey_press, bind, Proc.bind, hgp, Proc.emit, List.append_assoc,
    List.singleton_append, List.cons_append, List.nil_append]
  rfl

/-- The run of the Windows `on_hotkey_press` when the cursor position is read. -/
theorem on_hotkey_press_win_run (env : WinEnv) (x y : Int) (c : Nat) (r g b : Int)
    (hcur : env.cursor = some (x, y)) (hc : env.screen x y % 2 ^ 32 = c)
    (hr : r = ((c &&& 0xFF : Nat) : Int)) (hg : g = (((c >>> 8) &&& 0xFF : Nat) : Int))
    (hb : b = (((c >>> 16) &&& 0xFF : Nat) : Int)) :
    on_hotkey_press_win env =
      ⟨[Effect.cout "\nColor Grabbed\n",
          Effect.cout ("Coordinates: X = " ++ toString x ++ ", Y = " ++ toString y ++ "\n"),
          Effect.cout ("HEX: " ++ rgb_to_hex r g b ++ "\n"),
          Effect.cout ("RGB: " ++ toString r ++ ", " ++ toString g ++ ", " ++ toString b ++ "\n")] ++
          (copy_to_clipboard_win env (rgb_to_hex r g b)).trace,
        (copy_to_clipboard_win env (rgb_to_hex r g b)).result⟩ := by
  subst hr hg hb hc
  unfold on_hotkey_press_win
  rw [hcur]
  exact on_hotkey_press_run x y (get_pixel_color_win env) (copy_to_clipboard_win env) []
    (env.screen x y % 2 ^ 32) rfl

theorem copy_to_clipboard_win_opened (env : WinEnv) (hex : String)
    (ho : env.clipboard_opens = true) :
    copy_to_clipboard_win env hex =
      ⟨[Effect.EmptyClipboard, Effect.SetClipboardData (hex.data ++ [NUL])], some ()⟩ := by
  simp only [copy_to_clipboard_win, ho, if_true, bind, Proc.bind, Proc.emit]
  rfl

theorem copy_to_clipboard_win_quiet (env : WinEnv) (hex : String) :
    (copy_to_clipboard_win env hex).result = some () ∧
      stdout_text (copy_to_clipboard_win env hex).trace = "" := by
  unfold copy_to_clipboard_win
  split <;> exact ⟨rfl, rfl⟩

/-! ## The pick on Windows -/

/-- C3: end-to-end pick, Windows build. With the cursor at `(x, y)` and the
`COLORREF` value `c` read for that pixel, where `r = c & 0xFF`, `g = (c >> 8) & 0xFF`
and `b = (c >> 16) & 0xFF`, `on_hotkey_press` writes to stdout (after an empty
line) the lines `Color Grabbed`, `Coordinates: X = x, Y = y`, `HEX: ` followed by
`rgb_to_hex r g b`, and `RGB: r, g, b` with decimal numbers, in this order, and
returns; when the clipboard opens, the clipboard is emptied and set after the
four lines are written, and its text is left equal to `rgb_to_hex r g b`. For the
cursor at `(100, 200)` over a pixel of RGB `(16, 32, 48)` the output is the block
with `Coordinates: X = 100, Y = 200`, `HEX: #102030`, `RGB: 16, 32, 48` and the
clipboard holds `#102030`. -/
theorem on_hotkey_press_win_pick (env : WinEnv) (x y : Int) (c : Nat) (r g b : Int)
    (hcur : env.cursor = some (x, y)) (hc : env.screen x y % 2 ^ 32 = c)
    (hr : r = ((c &&& 0xFF : Nat) : Int)) (hg : g = (((c >>> 8) &&& 0xFF : Nat) : Int))
    (hb : b = (((c >>> 16) &&& 0xFF : Nat) : Int)) :
    (stdout_text (on_hotkey_press_win env).trace =
        "\nColor Grabbed\n" ++
        ("Coordinates: X = " ++ toString x ++ ", Y = " ++ toString y ++ "\n") ++
        ("HEX: " ++ rgb_to_hex r g b ++ "\n") ++
        ("RGB: " ++ toString r ++ ", " ++ toString g ++ ", " ++ toString b ++ "\n") ∧
      (on_hotkey_press_win env).result = some ()) ∧
    (env.clipboard_opens = true →
      (on_hotkey_press_win env).trace =
        [Effect.cout "\nColor Grabbed\n",
          Effect.cout ("Coordinates: X = " ++ toString x ++ ", Y = " ++ toString y ++ "\n"),
          Effect.cout ("HEX: " ++ rgb_to_hex r g b ++ "\n"),
          Effect.cout ("RGB: " ++ toString r ++ ", " ++ toString g ++ ", " ++ toString b ++ "\n"),
          Effect.EmptyClipboard,
          Effect.SetClipboardData ((rgb_to_hex r g b).data ++ [NUL])] ∧
      ∀ before : Option String,
        clipboard_after before (on_hotkey_press_win env).trace = some (rgb_to_hex r g b)) ∧
    (x = 100 → y = 200 → c = 0x302010 →
      (r = 16 ∧ g = 32 ∧ b = 48) ∧
      stdout_text (on_hotkey_press_win env).trace =
        "\nColor Grabbed\nCoordinates: X = 100, Y = 200\nHEX: #102030\nRGB: 16, 32, 48\n" ∧
      (env.clipboard_opens = true → ∀ before : Option String,
        clipboard_after before (on_hotkey_press_win env).trace = some "#102030")) := by
  have hrun := on_hotkey_press_win_run env x y c r g b hcur hc hr hg hb
  obtain ⟨hres, hquiet⟩ := copy_to_clipboard_win_quiet env (rgb_to_hex r g b)
  have hstd : stdout_text (on_hotkey_press_win env).trace =
      "\nColor Grabbed\n" ++
      ("Coordinates: X = " ++ toString x ++ ", Y = " ++ toString y ++ "\n") ++
      ("HEX: " ++ rgb_to_hex r g b ++ "\n") ++
      ("RGB: " ++ toString r ++ ", " ++ toString g ++ ", " ++ toString b ++ "\n") := by
    rw [hrun]
    simp only [List.cons_append, List.nil_append, List.append_eq, stdout_text, hquiet,
      String.append_assoc, String.append_empty]
  have hcb : env.clipboard_opens = true → ∀ before : Option String,
      clipboard_after before (on_hotkey_press_win env).trace = some (rgb_to_hex r g b) := by
    intro ho before
    rw [hrun, copy_to_clipboard_win_opened env _ ho]
    simp only [List.cons_append, List.nil_append, List.append_eq, clipboard_after,
      c_string_rgb_to_hex]
  refine ⟨⟨hstd, ?_⟩, ?_, ?_⟩
  · rw [hrun]
    exact hres
  · intro ho
    refine ⟨?_, hcb ho⟩
    rw [hrun, copy_to_clipboard_win_opened env _ ho]
    rfl
  · intro hx hy hpix
    subst hx hy hpix
    have er : r = 16 := by rw [hr]; decide
    have eg : g = 32 := by rw [hg]; decide
    have eb : b = 48 := by rw [hb]; decide
    have hhex : rgb_to_hex 16 32 48 = "#102030" := by
      rw [rgb_to_hex_bytes 16 32 48 (by decide) (by decide) (by decide) (by decide) (by decide)
        (by decide)]
      decide
    refine ⟨⟨er, eg, eb⟩, ?_, ?_⟩
    · rw [hstd, er, eg, eb, hhex]
      decide
    · intro ho before
      rw [hcb ho before, er, eg, eb, hhex]

/-- The environment of the end-to-end scenario: cursor at `(100, 200)`, every pixel
of RGB `(16, 32, 48)`, that is `COLORREF` `0x00302010`, and a clipboard that opens. -/
theorem on_hotkey_press_win_pick_witness :
    ((⟨some (100, 200), fun _ _ => 0x302010, true⟩ : WinEnv).cursor = some (100, 200) ∧
      (⟨some (100, 200), fun _ _ => 0x302010, true⟩ : WinEnv).screen 100 200 % 2 ^ 32 = 0x302010 ∧
      (16 : Int) = ((0x302010 &&& 0xFF : Nat) : Int) ∧
      (32 : Int) = (((0x302010 >>> 8) &&& 0xFF : Nat) : Int) ∧
      (48 : Int) = (((0x302010 >>> 16) &&& 0xFF : Nat) : Int)) ∧
    stdout_text (on_hotkey_press_win ⟨some (100, 200), fun _ _ => 0x302010, true⟩).trace =
      "\nColor Grabbed\nCoordinates: X = 100, Y = 200\nHEX: #102030\nRGB: 16, 32, 48\n" ∧
    clipboard_after (some "old text")
      (on_hotkey_press_win ⟨some (100, 200), fun _ _ => 0x302010, true⟩).trace = some "#102030" :=
  have h := on_hotkey_press_win_pick ⟨some (100, 200), fun _ _ => 0x302010, true⟩ 100 200 0x302010
    16 32 48 rfl (by decide) (by decide) (by decide) (by decide)
  ⟨⟨rfl, by decide, by decide, by decide, by decide⟩,
    (h.2.2 rfl rfl rfl).2.1, (h.2.2 rfl rfl rfl).2.2 rfl (some "old text")⟩

/-! ## The hex formatter's contract -/

/-- C1: for channels `r`, `g`, `b` in `[0, 255]`, `rgb_to_hex r g b` is the
7-character string made of `#` followed by the two-digit, zero-padded, lowercase
hexadecimal forms of `r`, `g` and `b`; `(0,0,0)` gives `#000000`, `(255,255,255)`
gives `#ffffff` and `(16,32,48)` gives `#102030`. -/
theorem rgb_to_hex_format (r g b : Int) (hr0 : 0 ≤ r) (hr : r ≤ 255) (hg0 : 0 ≤ g)
    (hg : g ≤ 255) (hb0 : 0 ≤ b) (hb : b ≤ 255) :
    rgb_to_hex r g b = String.mk ('#' :: (two_digit_lower_hex r.toNat ++
        two_digit_lower_hex g.toNat ++ two_digit_lower_hex b.toNat)) ∧
      (rgb_to_hex r g b).length = 7 ∧
      rgb_to_hex 0 0 0 = "#000000" ∧
      rgb_to_hex 255 255 255 = "#ffffff" ∧
      rgb_to_hex 16 32 48 = "#102030" := by
  refine ⟨rgb_to_hex_bytes r g b hr0 hr hg0 hg hb0 hb, ?_, ?_, ?_, ?_⟩
  · rw [rgb_to_hex_bytes r g b hr0 hr hg0 hg hb0 hb]
    rfl
  · rw [rgb_to_hex_bytes 0 0 0 (by decide) (by decide) (by decide) (by decide) (by decide)
      (by decide)]
    decide
  · rw [rgb_to_hex_bytes 255 255 255 (by decide) (by decide) (by decide) (by decide) (by decide)
      (by decide)]
    decide
  · rw [rgb_to_hex_bytes 16 32 48 (by decide) (by decide) (by decide) (by decide) (by decide)
      (by decide)]
    decide

/-- Witness of C1 at the colour `(16, 32, 48)`. -/
theorem rgb_to_hex_format_witness :
    ((0 : Int) ≤ 16 ∧ (16 : Int) ≤ 255 ∧ (0 : Int) ≤ 32 ∧ (32 : Int) ≤ 255 ∧
      (0 : Int) ≤ 48 ∧ (48 : Int) ≤ 255) ∧
    (rgb_to_hex 16 32 48 = String.mk ('#' :: (two_digit_lower_hex (16 : Int).toNat ++
        two_digit_lower_hex (32 : Int).toNat ++ two_digit_lower_hex (48 : Int).toNat)) ∧
      (rgb_to_hex 16 32 48).length = 7 ∧
      rgb_to_hex 0 0 0 = "#000000" ∧
      rgb_to_hex 255 255 255 = "#ffffff" ∧
      rgb_to_hex 16 32 48 = "#102030") :=
  ⟨by decide, rgb_to_hex_format 16 32 48 (by decide) (by decide) (by decide) (by decide)
    (by decide) (by decide)⟩

/-- C2: round trip. For channels in `[0, 255]`, reading the characters 1-2, 3-4 and
5-6 of `rgb_to_hex r g b` (those after the `#`) as base-16 numbers gives back `r`,
`g` and `b`; hence two in-range colours with the same hex string are equal. -/
theorem rgb_to_hex_round_trip (r g b : Int) (hr0 : 0 ≤ r) (hr : r ≤ 255) (hg0 : 0 ≤ g)
    (hg : g ≤ 255) (hb0 : 0 ≤ b) (hb : b ≤ 255) :
    (parse_hex (two_chars_at (rgb_to_hex r g b) 1) = some r.toNat ∧
      parse_hex (two_chars_at (rgb_to_hex r g b) 3) = some g.toNat ∧
      parse_hex (two_chars_at (rgb_to_hex r g b) 5) = some b.toNat) ∧
    ∀ r2 g2 b2 : Int, 0 ≤ r2 → r2 ≤ 255 → 0 ≤ g2 → g2 ≤ 255 → 0 ≤ b2 → b2 ≤ 255 →
      rgb_to_hex r g b = rgb_to_hex r2 g2 b2 → r = r2 ∧ g = g2 ∧ b = b2 := by
  have key : ∀ r g b : Int, 0 ≤ r → r ≤ 255 → 0 ≤ g → g ≤ 255 → 0 ≤ b → b ≤ 255 →
      (parse_hex (two_chars_at (rgb_to_hex r g b) 1) = some r.toNat ∧
        parse_hex (two_chars_at (rgb_to_hex r g b) 3) = some g.toNat ∧
        parse_hex (two_chars_at (rgb_to_hex r g b) 5) = some b.toNat) := by
    intro r g b hr0 hr hg0 hg hb0 hb
    rw [rgb_to_hex_bytes r g b hr0 hr hg0 hg hb0 hb]
    have e1 := parse_hex_two_digit r.toNat (by omega)
    have e2 := parse_hex_two_digit g.toNat (by omega)
    have e3 := parse_hex_two_digit b.toNat (by omega)
    refine ⟨?_, ?_, ?_⟩
    · simpa [two_chars_at, two_digit_lower_hex] using e1
    · simpa [two_chars_at, two_digit_lower_hex] using e2
    · simpa [two_chars_at, two_digit_lower_hex] using e3
  refine ⟨key r g b hr0 hr hg0 hg hb0 hb, ?_⟩
  intro r2 g2 b2 h1 h2 h3 h4 h5 h6 heq
  obtain ⟨a1, a2, a3⟩ := key r g b hr0 hr hg0 hg hb0 hb
  obtain ⟨c1, c2, c3⟩ := key r2 g2 b2 h1 h2 h3 h4 h5 h6
  rw [heq, c1] at a1
  rw [heq, c2] at a2
  rw [heq, c3] at a3
  have d1 := Option.some.inj a1
  have d2 := Option.some.inj a2
  have d3 := Option.some.inj a3
  omega

/-- Witness of C2 at the colour `(16, 32, 48)`. -/
theorem rgb_to_hex_round_trip_witness :
    ((0 : Int) ≤ 16 ∧ (16 : Int) ≤ 255 ∧ (0 : Int) ≤ 32 ∧ (32 : Int) ≤ 255 ∧
      (0 : Int) ≤ 48 ∧ (48 : Int) ≤ 255) ∧
    parse_hex (two_chars_at (rgb_to_hex 16 32 48) 1) = some 16 ∧
    parse_hex (two_chars_at (rgb_to_hex 16 32 48) 3) = some 32 ∧
    parse_hex (two_chars_at (rgb_to_hex 16 32 48) 5) = some 48 :=
  ⟨by decide, (rgb_to_hex_round_trip 16 32 48 (by decide) (by decide) (by decide) (by decide)
    (by decide) (by decide)).1⟩

/-- C10: `rgb_to_hex` does not validate. For 32-bit `int` channels the result is
7 characters long exactly when every channel is in `[0, 255]`; a channel above 255
is written with at least three hex digits and a negative channel as the eight hex
digits of its 32-bit two's complement value. -/
theorem rgb_to_hex_length_eq_seven_iff (r g b : Int)
    (hr : -2 ^ 31 ≤ r ∧ r < 2 ^ 31) (hg : -2 ^ 31 ≤ g ∧ g < 2 ^ 31)
    (hb : -2 ^ 31 ≤ b ∧ b < 2 ^ 31) :
    ((rgb_to_hex r g b).length = 7 ↔
      (0 ≤ r ∧ r ≤ 255) ∧ (0 ≤ g ∧ g ≤ 255) ∧ (0 ≤ b ∧ b ≤ 255)) ∧
    (∀ v : Int, -2 ^ 31 ≤ v → v < 2 ^ 31 → 255 < v →
      put_hex v = hex_digits v.toNat ∧ 3 ≤ (put_hex v).length) ∧
    (∀ v : Int, -2 ^ 31 ≤ v → v < 0 →
      put_hex v = hex_digits (v + 2 ^ 32).toNat ∧ (put_hex v).length = 8) := by
  obtain ⟨r2, ri⟩ := put_hex_length_eq_two_iff r hr.1 hr.2
  obtain ⟨g2, gi⟩ := put_hex_length_eq_two_iff g hg.1 hg.2
  obtain ⟨b2, bi⟩ := put_hex_length_eq_two_iff b hb.1 hb.2
  refine ⟨?_, ?_, ?_⟩
  · rw [rgb_to_hex_length, ← ri, ← gi, ← bi]
    omega
  · intro v hlo hhi hbig
    have hmod : v % 2 ^ 32 = v := by omega
    have h3 : 2 < (hex_digits v.toNat).length :=
      hex_digits_length_gt _ 2 (by norm_num; omega)
    refine ⟨?_, ?_⟩
    · have hz : 2 - (hex_digits v.toNat).length = 0 := by omega
      unfold put_hex pad_left
      rw [hmod, hz]
      rfl
    · rw [put_hex_length, hmod]
      omega
  · intro v hlo hneg
    exact put_hex_negative v hlo hneg

/-- Witness of C10 at the out-of-range colour `(-1, 256, 0)`. -/
theorem rgb_to_hex_length_eq_seven_iff_witness :
    ((-2 ^ 31 ≤ (-1 : Int) ∧ (-1 : Int) < 2 ^ 31) ∧ (-2 ^ 31 ≤ (256 : Int) ∧ (256 : Int) < 2 ^ 31) ∧
      (-2 ^ 31 ≤ (0 : Int) ∧ (0 : Int) < 2 ^ 31)) ∧
    ((rgb_to_hex (-1) 256 0).length = 7 ↔
      (0 ≤ (-1 : Int) ∧ (-1 : Int) ≤ 255) ∧ (0 ≤ (256 : Int) ∧ (256 : Int) ≤ 255) ∧
        (0 ≤ (0 : Int) ∧ (0 : Int) ≤ 255)) :=
  ⟨by decide, (rgb_to_hex_length_eq_seven_iff (-1) 256 0 (by decide) (by decide) (by decide)).1⟩

/-! ## The Windows hotkey detector -/

theorem is_hotkey_pressed_win_eq (ctrl alt c : Nat) (h1 : ctrl < 2 ^ 16) (h2 : alt < 2 ^ 16)
    (h3 : c < 2 ^ 16) :
    is_hotkey_pressed_win ctrl alt c = (key_down ctrl && key_down alt && key_down c) := by
  unfold is_hotkey_pressed_win
  rw [key_test ctrl h1, key_test alt h2, key_test c h3]

/-- C4: level-triggered hotkey detector, Windows build. For 16-bit key states of
Control, Alt and the letter C, `is_hotkey_pressed` is true exactly when the `0x8000`
bit is set in all three; it is false when no key is held, and when two of the keys
are down, flipping the down-state of the third flips the result. -/
theorem is_hotkey_pressed_win_iff (ctrl alt c : Nat) (h1 : ctrl < 2 ^ 16) (h2 : alt < 2 ^ 16)
    (h3 : c < 2 ^ 16) :
    (is_hotkey_pressed_win ctrl alt c = true ↔
      key_down ctrl = true ∧ key_down alt = true ∧ key_down c = true) ∧
    (key_down ctrl = false → key_down alt = false → key_down c = false →
      is_hotkey_pressed_win ctrl alt c = false) ∧
    (∀ k : Nat, k < 2 ^ 16 → key_down k = !key_down ctrl →
      key_down alt = true → key_down c = true →
      is_hotkey_pressed_win k alt c = !is_hotkey_pressed_win ctrl alt c) ∧
    (∀ k : Nat, k < 2 ^ 16 → key_down k = !key_down alt →
      key_down ctrl = true → key_down c = true →
      is_hotkey_pressed_win ctrl k c = !is_hotkey_pressed_win ctrl alt c) ∧
    (∀ k : Nat, k < 2 ^ 16 → key_down k = !key_down c →
      key_down ctrl = true → key_down alt = true →
      is_hotkey_pressed_win ctrl alt k = !is_hotkey_pressed_win ctrl alt c) := by
  have e := is_hotkey_pressed_win_eq ctrl alt c h1 h2 h3
  refine ⟨?_, ?_, ?_, ?_, ?_⟩
  · rw [e]
    simp only [Bool.and_eq_true, and_assoc]
  · intro a1 a2 a3
    rw [e, a1, a2, a3]
    rfl
  · intro k hk hf a2 a3
    rw [is_hotkey_pressed_win_eq k alt c hk h2 h3, e, hf, a2, a3]
    simp
  · intro k hk hf a1 a3
    rw [is_hotkey_pressed_win_eq ctrl k c h1 hk h3, e, hf, a1, a3]
    simp
  · intro k hk hf a1 a2
    rw [is_hotkey_pressed_win_eq ctrl alt k h1 h2 hk, e, hf, a1, a2]
    simp

/-- Witness of C4: Control and Alt down, the letter C up. -/
theorem is_hotkey_pressed_win_iff_witness :
    ((0x8000 : Nat) < 2 ^ 16 ∧ (0x8001 : Nat) < 2 ^ 16 ∧ (0x0001 : Nat) < 2 ^ 16) ∧
    (is_hotkey_pressed_win 0x8000 0x8001 0x0001 = true ↔
      key_down 0x8000 = true ∧ key_down 0x8001 = true ∧ key_down 0x0001 = true) ∧
    is_hotkey_pressed_win 0x8000 0x8001 0xFFFF = !is_hotkey_pressed_win 0x8000 0x8001 0x0001 :=
  have h := is_hotkey_pressed_win_iff 0x8000 0x8001 0x0001 (by decide) (by decide) (by decide)
  ⟨by decide, h.1, h.2.2.2.2 0xFFFF (by decide) (by decide) (by decide) (by decide)⟩

/-! ## Display failure on Linux -/

/-- The iteration in which `is_hotkey_pressed` cannot open the display. -/
theorem monitor_iteration_linux_detector_fails (env : X11Env)
    (hd : env.hotkey_display = false) :
    monitor_iteration_linux env =
      ⟨[Effect.XOpenDisplay false, Effect.cerr "Cannot open X display!\n", Effect.exit 1],
        none⟩ := by
  obtain ⟨hdv, kc, ek, cur, pd, px⟩ := env
  simp only at hd
  subst hd
  simp [monitor_iteration_linux, monitor_iteration, is_hotkey_pressed_linux, bind, Proc.bind,
    Proc.emit, Proc.exit]

/-- The iteration in which the hotkey event arrives, the cursor position is read
and `get_pixel_color` cannot open the display. -/
theorem monitor_iteration_linux_sampler_fails (env : X11Env) (x y : Int)
    (hd : env.hotkey_display = true) (hk : env.event_keycode = env.keycode_C)
    (hcur : env.cursor = some (x, y)) (hp : env.pixel_display = false) :
    monitor_iteration_linux env =
      ⟨[Effect.XOpenDisplay true, Effect.XOpenDisplay false,
          Effect.cerr "Cannot open display\n", Effect.exit 1], none⟩ := by
  obtain ⟨hdv, kc, ek, cur, pd, px⟩ := env
  simp only at hd hk hcur hp
  subst hd hk hcur hp
  simp [monitor_iteration_linux, monitor_iteration, is_hotkey_pressed_linux,
    on_hotkey_press_linux, on_hotkey_press, get_pixel_color_linux, bind, Proc.bind,
    Proc.emit, Proc.exit, pure, Proc.ret]

/-- A failed call of `XOpenDisplay` occurs in an iteration exactly when the display
does not open for the detector, or it opens for the detector, the hotkey event
arrives, the cursor position is read and the display does not open for the pixel
sampler. -/
theorem linux_open_failure_iff (env : X11Env) :
    Effect.XOpenDisplay false ∈ (monitor_iteration_linux env).trace ↔
      (env.hotkey_display = false ∨
        (env.hotkey_display = true ∧ env.event_keycode = env.keycode_C ∧
          env.cursor ≠ none ∧ env.pixel_display = false)) := by
  obtain ⟨hd, kc, ek, cur, pd, px⟩ := env
  cases hd
  · simp [monitor_iteration_linux, monitor_iteration, is_hotkey_pressed_linux, bind, Proc.bind,
      Proc.emit, Proc.exit]
  · by_cases hk : ek = kc
    · cases cur with
      | none =>
          simp [monitor_iteration_linux, monitor_iteration, is_hotkey_pressed_linux,
            on_hotkey_press_linux, on_hotkey_press, bind, Proc.bind, Proc.emit, Proc.exit,
            pure, Proc.ret, hk]
      | some xy =>
          obtain ⟨x, y⟩ := xy
          cases pd <;>
            simp [monitor_iteration_linux, monitor_iteration, is_hotkey_pressed_linux,
              on_hotkey_press_linux, on_hotkey_press, get_pixel_color_linux,
              copy_to_clipboard_linux, bind, Proc.bind, Proc.emit, Proc.exit, pure, Proc.ret,
              hk]
    · simp [monitor_iteration_linux, monitor_iteration, is_hotkey_pressed_linux, bind, Proc.bind,
        Proc.emit, Proc.exit, pure, Proc.ret, hk]

/-- C5: failure scenario, Linux build. Take an iteration of the monitor loop in
which opening the X display fails: either `XOpenDisplay` fails inside
`is_hotkey_pressed`, or it succeeds there, the hotkey event arrives, the cursor
position is read and `XOpenDisplay` fails inside `get_pixel_color`. In the first
case the run is the failed call, the line `Cannot open X display!` on stderr and
`exit(1)`; in the second it is the detector's successful call, the failed call, the
line `Cannot open display` on stderr and `exit(1)`. In both the process has
exited, nothing is written to stdout and no clipboard command is run. -/
theorem linux_display_failure (env : X11Env)
    (hfail : env.hotkey_display = false ∨
      (env.hotkey_display = true ∧ env.event_keycode = env.keycode_C ∧
        env.cursor ≠ none ∧ env.pixel_display = false)) :
    (env.hotkey_display = false →
      (monitor_iteration_linux env).trace =
        [Effect.XOpenDisplay false, Effect.cerr "Cannot open X display!\n", Effect.exit 1] ∧
      stderr_text (monitor_iteration_linux env).trace = "Cannot open X display!\n") ∧
    (env.hotkey_display = true →
      (monitor_iteration_linux env).trace =
        [Effect.XOpenDisplay true, Effect.XOpenDisplay false,
          Effect.cerr "Cannot open display\n", Effect.exit 1] ∧
      stderr_text (monitor_iteration_linux env).trace = "Cannot open display\n") ∧
    (monitor_iteration_linux env).result = none ∧
    (monitor_iteration_linux env).trace.getLast? = some (Effect.exit 1) ∧
    stdout_text (monitor_iteration_linux env).trace = "" ∧
    system_calls (monitor_iteration_linux env).trace = [] ∧
    (∀ s, Effect.cout s ∉ (monitor_iteration_linux env).trace) ∧
    (∀ cmd, Effect.system cmd ∉ (monitor_iteration_linux env).trace) := by
  rcases hfail with hd | ⟨hd, hk, hcur, hp⟩
  · have hrun := monitor_iteration_linux_detector_fails env hd
    rw [hrun]
    refine ⟨fun _ => ⟨rfl, rfl⟩, ?_, rfl, rfl, rfl, rfl, ?_, ?_⟩
    · intro ht
      rw [hd] at ht
      exact Bool.noConfusion ht
    · intro s hs
      simp at hs
    · intro cmd hs
      simp at hs
  · obtain ⟨xy, hxy⟩ := Option.ne_none_iff_exists'.mp hcur
    obtain ⟨x, y⟩ := xy
    have hrun := monitor_iteration_linux_sampler_fails env x y hd hk hxy hp
    rw [hrun]
    refine ⟨?_, fun _ => ⟨rfl, rfl⟩, rfl, rfl, rfl, rfl, ?_, ?_⟩
    · intro hf
      rw [hd] at hf
      exact Bool.noConfusion hf
    · intro s hs
      simp at hs
    · intro cmd hs
      simp at hs

/-- Witness of C5, on both failures: the display cannot be opened by the detector;
and the display cannot be opened by the pixel sampler, after the hotkey was
detected with the cursor at `(100, 200)`. -/
theorem linux_display_failure_witness :
    ((⟨false, 54, 54, some (100, 200), true, fun _ _ => 0x102030⟩ : X11Env).hotkey_display =
        false ∧
      (monitor_iteration_linux ⟨false, 54, 54, some (100, 200), true, fun _ _ => 0x102030⟩).trace =
        [Effect.XOpenDisplay false, Effect.cerr "Cannot open X display!\n", Effect.exit 1] ∧
      (monitor_iteration_linux ⟨false, 54, 54, some (100, 200), true, fun _ _ => 0x102030⟩).result =
        none) ∧
    (((⟨true, 54, 54, some (100, 200), false, fun _ _ => 0x102030⟩ : X11Env).hotkey_display =
          true ∧
        (⟨true, 54, 54, some (100, 200), false, fun _ _ => 0x102030⟩ : X11Env).event_keycode =
          (⟨true, 54, 54, some (100, 200), false, fun _ _ => 0x102030⟩ : X11Env).keycode_C ∧
        (⟨true, 54, 54, some (100, 200), false, fun _ _ => 0x102030⟩ : X11Env).cursor ≠ none ∧
        (⟨true, 54, 54, some (100, 200), false, fun _ _ => 0x102030⟩ : X11Env).pixel_display =
          false) ∧
      (monitor_iteration_linux ⟨true, 54, 54, some (100, 200), false, fun _ _ => 0x102030⟩).trace =
        [Effect.XOpenDisplay true, Effect.XOpenDisplay false,
          Effect.cerr "Cannot open display\n", Effect.exit 1] ∧
      stdout_text
        (monitor_iteration_linux ⟨true, 54, 54, some (100, 200), false, fun _ _ => 0x102030⟩).trace
        = "") :=
  have h1 := linux_display_failure ⟨false, 54, 54, some (100, 200), true, fun _ _ => 0x102030⟩
    (Or.inl rfl)
  have h2 := linux_display_failure ⟨true, 54, 54, some (100, 200), false, fun _ _ => 0x102030⟩
    (Or.inr ⟨rfl, rfl, by decide, rfl⟩)
  ⟨⟨rfl, (h1.1 rfl).1, h1.2.2.1⟩,
    ⟨⟨rfl, rfl, by decide, rfl⟩, (h2.2.1 rfl).1, h2.2.2.2.2.1⟩⟩

/-! ## The shell-out clipboard writers -/

theorem shell_strip_comments_comment (l : List Char) (h : ∀ c ∈ l, c ≠ '\n') :
    shell_strip_comments LexState.comment l = [] := by
  induction l with
  | nil => rfl
  | cons a t ih =>
      have ha : a ≠ '\n' := h a (List.mem_cons_self _ _)
      have ht : ∀ c ∈ t, c ≠ '\n' := fun c hc => h c (List.mem_cons_of_mem _ hc)
      simp only [shell_strip_comments, if_neg ha, ih ht]

/-- After `echo ` a formatted colour and whatever follows it on the line are a
comment for the shell. -/
theorem shell_strip_echo_hex (r g b : Int) (rest : List Char) (hrest : ∀ c ∈ rest, c ≠ '\n') :
    shell_strip_comments LexState.start ("echo ".data ++ (rgb_to_hex r g b).data ++ rest) =
      "echo ".data := by
  have hhex : ∀ c ∈ put_hex r ++ put_hex g ++ put_hex b ++ rest, c ≠ '\n' := by
    intro c hc
    have hall : ∀ c ∈ "0123456789abcdef".data, c ≠ '\n' := by decide
    rcases List.mem_append.mp hc with h | h
    · rcases List.mem_append.mp h with h | h
      · rcases List.mem_append.mp h with h | h
        · exact hall c (put_hex_chars r c h)
        · exact hall c (put_hex_chars g c h)
      · exact hall c (put_hex_chars b c h)
    · exact hrest c h
  have hc := shell_strip_comments_comment _ hhex
  simp only [rgb_to_hex, List.cons_append, List.nil_append, List.append_assoc] at hc ⊢
  simp [shell_strip_comments, shell_delimiter, hc]

/-- C8 (defect): the hex string that the Linux and macOS `copy_to_clipboard`
interpolate always starts with `#`, directly after the blank that follows `echo`.
For the shell this starts a comment, so for every colour the command that
`system` executes is just `echo `: the pipe and the clipboard helper are discarded
with the hex string, and nothing reaches the clipboard. -/
theorem shell_out_clipboard_command_is_comment (r g b : Int) :
    (rgb_to_hex r g b).data.head? = some '#' ∧
    shell_effective_command (clipboard_command_linux (rgb_to_hex r g b)) = "echo " ∧
    shell_effective_command (clipboard_command_macos (rgb_to_hex r g b)) = "echo " ∧
    system_calls (copy_to_clipboard_linux (rgb_to_hex 16 32 48)).trace =
      ["echo #102030 | xclip -selection clipboard"] ∧
    shell_effective_command "echo #102030 | xclip -selection clipboard" = "echo " := by
  have hhex : rgb_to_hex 16 32 48 = "#102030" := by
    rw [rgb_to_hex_bytes 16 32 48 (by decide) (by decide) (by decide) (by decide) (by decide)
      (by decide)]
    decide
  refine ⟨rfl, ?_, ?_, ?_, by decide⟩
  · have h := shell_strip_echo_hex r g b " | xclip -selection clipboard".data (by decide)
    simp only [shell_effective_command, clipboard_command_linux, String.data_append]
    rw [h]
  · have h := shell_strip_echo_hex r g b " | pbcopy".data (by decide)
    simp only [shell_effective_command, clipboard_command_macos, String.data_append]
    rw [h]
  · simp only [copy_to_clipboard_linux, Proc.emit, system_calls, clipboard_command_linux, hhex]
    decide

/-! ## The Linux pixel sampler and the channel macros -/

/-- C9 (defect): Linux `get_pixel_color` returns the low 24 bits of the X11 pixel,
`0xRRGGBB`, but `GetRValue`, `GetGValue`, `GetBValue` read a `COLORREF` as
`0xBBGGRR`: the channels that `on_hotkey_press` extracts are (blue, green, red) of
the pixel. For the pixel `0x102030`, of RGB `(16, 32, 48)`, the pick prints and
copies `#302010` and prints `RGB: 48, 32, 16`. -/
theorem linux_pick_swaps_red_and_blue :
    (∀ p : Nat, pack_pixel_linux p = p &&& 0xFFFFFF ∧
      GetRValue (pack_pixel_linux p) = p &&& 0xFF ∧
      GetGValue (pack_pixel_linux p) = (p >>> 8) &&& 0xFF ∧
      GetBValue (pack_pixel_linux p) = (p >>> 16) &&& 0xFF) ∧
    (get_pixel_color_linux ⟨true, 54, 54, some (100, 200), true, fun _ _ => 0x102030⟩ 100 200).result
      = some 0x102030 ∧
    (GetRValue 0x102030, GetGValue 0x102030, GetBValue 0x102030) = (48, 32, 16) ∧
    stdout_text
      (on_hotkey_press_linux ⟨true, 54, 54, some (100, 200), true, fun _ _ => 0x102030⟩).trace =
      "\nColor Grabbed\nCoordinates: X = 100, Y = 200\nHEX: #302010\nRGB: 48, 32, 16\n" ∧
    system_calls
      (on_hotkey_press_linux ⟨true, 54, 54, some (100, 200), true, fun _ _ => 0x102030⟩).trace =
      ["echo #302010 | xclip -selection clipboard"] := by
  have hhex : rgb_to_hex 48 32 16 = "#302010" := by
    rw [rgb_to_hex_bytes 48 32 16 (by decide) (by decide) (by decide) (by decide) (by decide)
      (by decide)]
    decide
  have hrun := on_hotkey_press_run 100 200
    (get_pixel_color_linux ⟨true, 54, 54, some (100, 200), true, fun _ _ => 0x102030⟩)
    copy_to_clipboard_linux [Effect.XOpenDisplay true] 0x102030 rfl
  have e1 : ((GetRValue 0x102030 : Nat) : Int) = 48 := by decide
  have e2 : ((GetGValue 0x102030 : Nat) : Int) = 32 := by decide
  have e3 : ((GetBValue 0x102030 : Nat) : Int) = 16 := by decide
  rw [e1, e2, e3, hhex] at hrun
  refine ⟨?_, rfl, by decide, ?_, ?_⟩
  · intro p
    rw [pack_pixel_linux_eq]
    refine ⟨rfl, ?_, ?_, ?_⟩
    · have := byte_of_low24 p 0 (by omega)
      simpa [GetRValue] using this
    · exact byte_of_low24 p 8 (by omega)
    · exact byte_of_low24 p 16 (by omega)
  · unfold on_hotkey_press_linux
    rw [hrun]
    decide
  · unfold on_hotkey_press_linux
    rw [hrun]
    decide

/-! ## The monitor loop -/

theorem monitor_iteration_level (held : Nat → Bool) (now : Nat) :
    monitor_iteration (level_detector held now) (pick_handler now) =
      if held now = true then
        ⟨[Effect.pick, Effect.sleep_for 300, Effect.sleep_for 10], some ()⟩
      else ⟨[Effect.sleep_for 10], some ()⟩ := by
  cases h : held now <;>
    simp [monitor_iteration, level_detector, pick_handler, bind, Proc.bind, Proc.emit, pure,
      Proc.ret, h]

theorem monitor_hotkey_level_succ (held : Nat → Bool) (n now : Nat) :
    monitor_hotkey (level_detector held) pick_handler (n + 1) now =
      if held now = true then
        (now, [Effect.pick, Effect.sleep_for 300, Effect.sleep_for 10]) ::
          monitor_hotkey (level_detector held) pick_handler n (now + 310)
      else
        (now, [Effect.sleep_for 10]) ::
          monitor_hotkey (level_detector held) pick_handler n (now + 10) := by
  rw [monitor_hotkey]
  simp only [monitor_iteration_level]
  split <;> rfl

theorem pick_times_level_succ (held : Nat → Bool) (n now : Nat) :
    pick_times (monitor_hotkey (level_detector held) pick_handler (n + 1) now) =
      if held now = true then
        now :: pick_times (monitor_hotkey (level_detector held) pick_handler n (now + 310))
      else pick_times (monitor_hotkey (level_detector held) pick_handler n (now + 10)) := by
  rw [monitor_hotkey_level_succ]
  split <;> simp [pick_times, List.filter]

/-- Iterations start no earlier than the loop. -/
theorem iteration_times_ge (held : Nat → Bool) (n : Nat) :
    ∀ now t, t ∈ (monitor_hotkey (level_detector held) pick_handler n now).map Prod.fst →
      now ≤ t := by
  induction n with
  | zero =>
      intro now t ht
      simp [monitor_hotkey] at ht
  | succ n ih =>
      intro now t ht
      rw [monitor_hotkey_level_succ] at ht
      split at ht
      · rcases List.mem_cons.mp ht with h | h
        · exact le_of_eq h.symm
        · have := ih (now + 310) t h
          omega
      · rcases List.mem_cons.mp ht with h | h
        · exact le_of_eq h.symm
        · have := ih (now + 10) t h
          omega

/-- Calls are made no earlier than the loop starts, and only at instants at which
the combination is held. -/
theorem pick_times_ge_held (held : Nat → Bool) (n : Nat) :
    ∀ now t, t ∈ pick_times (monitor_hotkey (level_detector held) pick_handler n now) →
      now ≤ t ∧ held t = true := by
  induction n with
  | zero =>
      intro now t ht
      simp [monitor_hotkey, pick_times] at ht
  | succ n ih =>
      intro now t ht
      rw [pick_times_level_succ] at ht
      split at ht
      · rename_i hheld
        rcases List.mem_cons.mp ht with h | h
        · subst h
          exact ⟨le_refl _, hheld⟩
        · have := ih (now + 310) t h
          exact ⟨by omega, this.2⟩
      · have := ih (now + 10) t ht
        exact ⟨by omega, this.2⟩

theorem filter_window_nil (t1 t2 : Nat) (l : List Nat) (h : ∀ t ∈ l, t2 < t) :
    l.filter (fun t => decide (t1 ≤ t ∧ t ≤ t2)) = [] := by
  rw [List.filter_eq_nil_iff]
  intro t ht
  have := h t ht
  simp only [decide_eq_true_eq, not_and, not_le]
  intro _
  exact this

/-- No call is made in a window that ends before the loop reaches it. -/
theorem picks_within_later (held : Nat → Bool) (n now t1 t2 : Nat) (h : t2 < now) :
    picks_within t1 t2 (monitor_hotkey (level_detector held) pick_handler n now) = 0 := by
  unfold picks_within
  rw [filter_window_nil]
  · rfl
  · intro t ht
    have := (pick_times_ge_held held n now t ht).1
    omega

theorem picks_within_level_succ (held : Nat → Bool) (n now t1 t2 : Nat) :
    picks_within t1 t2 (monitor_hotkey (level_detector held) pick_handler (n + 1) now) =
      if held now = true then
        (if t1 ≤ now ∧ now ≤ t2 then 1 else 0) +
          picks_within t1 t2 (monitor_hotkey (level_detector held) pick_handler n (now + 310))
      else picks_within t1 t2 (monitor_hotkey (level_detector held) pick_handler n (now + 10)) := by
  unfold picks_within
  rw [pick_times_level_succ]
  split
  · by_cases hw : t1 ≤ now ∧ now ≤ t2
    · simp [List.filter, hw]
      omega
    · simp [List.filter, hw]
  · rfl

/-- In a window shorter than the debounce interval at most one call is made. -/
theorem picks_within_le_one (held : Nat → Bool) (t1 t2 : Nat) (hlt : t2 - t1 < 300) (n : Nat) :
    ∀ now, picks_within t1 t2 (monitor_hotkey (level_detector held) pick_handler n now) ≤ 1 := by
  induction n with
  | zero =>
      intro now
      simp [picks_within, pick_times, monitor_hotkey]
  | succ n ih =>
      intro now
      rw [picks_within_level_succ]
      split
      · by_cases hw : t1 ≤ now ∧ now ≤ t2
        · rw [if_pos hw, picks_within_later held n (now + 310) t1 t2 (by omega)]
        · rw [if_neg hw, Nat.zero_add]
          exact ih (now + 310)
      · exact ih (now + 10)

/-- When a poll falls on an instant at which the combination is held, exactly one
call is made from that instant to any instant less than 300 ms later. -/
theorem picks_within_eq_one (held : Nat → Bool) (t1 t2 : Nat) (h1 : held t1 = true)
    (hle : t1 ≤ t2) (hlt : t2 - t1 < 300) (n : Nat) :
    ∀ now, t1 ∈ (monitor_hotkey (level_detector held) pick_handler n now).map Prod.fst →
      picks_within t1 t2 (monitor_hotkey (level_detector held) pick_handler n now) = 1 := by
  induction n with
  | zero =>
      intro now hmem
      simp [monitor_hotkey] at hmem
  | succ n ih =>
      intro now hmem
      rw [picks_within_level_succ]
      rw [monitor_hotkey_level_succ] at hmem
      by_cases hnow : now = t1
      · subst hnow
        rw [if_pos h1, if_pos ⟨le_refl _, hle⟩,
          picks_within_later held n (now + 310) now t2 (by omega)]
      · split at hmem
        · rename_i hheld
          rcases List.mem_cons.mp hmem with h | h
          · exact absurd h.symm hnow
          · have hge := iteration_times_ge held n (now + 310) t1 h
            have hw : ¬ (t1 ≤ now ∧ now ≤ t2) := by omega
            rw [if_pos hheld, if_neg hw, Nat.zero_add]
            exact ih (now + 310) h
        · rename_i hheld
          rcases List.mem_cons.mp hmem with h | h
          · exact absurd h.symm hnow
          · rw [if_neg hheld]
            exact ih (now + 10) h

theorem tap_timeline_pick_times (n : Nat) :
    ∀ now, now % 10 = 0 →
      pick_times (monitor_hotkey (level_detector tap_timeline) pick_handler n now) = [] := by
  induction n with
  | zero =>
      intro now _
      rfl
  | succ n ih =>
      intro now hnow
      have hoff : ¬ (tap_timeline now = true) := by
        simp only [tap_timeline, Bool.or_eq_true, decide_eq_true_eq]
        omega
      rw [pick_times_level_succ, if_neg hoff]
      exact ih (now + 10) (by omega)

/-- C6, as stated, fails: in the timeline in which the combination is held at the
instants 3 ms and 5 ms only, two assertions 2 ms apart, the loop started at 0
polls at multiples of 10 ms and never calls `on_hotkey_press`, however long it
runs. -/
theorem debounce_exactly_one_fails :
    tap_timeline 3 = true ∧ tap_timeline 5 = true ∧ 5 - 3 < 300 ∧
    (∀ n : Nat,
      pick_times (monitor_hotkey (level_detector tap_timeline) pick_handler n 0) = [] ∧
      picks_within 3 5 (monitor_hotkey (level_detector tap_timeline) pick_handler n 0) = 0) := by
  refine ⟨by decide, by decide, by decide, ?_⟩
  intro n
  have h := tap_timeline_pick_times n 0 rfl
  refine ⟨h, ?_⟩
  unfold picks_within
  rw [h]
  rfl

/-- C6, amended: run against any timeline of the hotkey state with a
level-triggered detector, from any starting time and for any number of
iterations, `monitor_hotkey` makes at most one call of `on_hotkey_press` between
two hotkey assertions separated by less than 300 ms, never two; it makes exactly
one when a poll falls on the first assertion; and every call is made at an instant
at which the combination is held. -/
theorem debounce_at_most_one (held : Nat → Bool) (n t0 t1 t2 : Nat) (h1 : held t1 = true)
    (_h2 : held t2 = true) (hle : t1 ≤ t2) (hlt : t2 - t1 < 300) :
    picks_within t1 t2 (monitor_hotkey (level_detector held) pick_handler n t0) ≤ 1 ∧
    (t1 ∈ (monitor_hotkey (level_detector held) pick_handler n t0).map Prod.fst →
      picks_within t1 t2 (monitor_hotkey (level_detector held) pick_handler n t0) = 1) ∧
    (∀ t ∈ pick_times (monitor_hotkey (level_detector held) pick_handler n t0),
      held t = true) :=
  ⟨picks_within_le_one held t1 t2 hlt n t0,
    picks_within_eq_one held t1 t2 h1 hle hlt n t0,
    fun t ht => (pick_times_ge_held held n t0 t ht).2⟩

/-- Witness of the amended C6: the combination held during the first 400 ms, the
loop started at 0 and run for 10 iterations, the window from 0 to 299. -/
theorem debounce_at_most_one_witness :
    ((fun t : Nat => decide (t < 400)) 0 = true ∧ (fun t : Nat => decide (t < 400)) 299 = true ∧
      0 ≤ 299 ∧ 299 - 0 < 300) ∧
    picks_within 0 299
      (monitor_hotkey (level_detector fun t => decide (t < 400)) pick_handler 10 0) = 1 ∧
    pick_times (monitor_hotkey (level_detector fun t => decide (t < 400)) pick_handler 10 0) =
      [0, 310] :=
  have h := debounce_at_most_one (fun t => decide (t < 400)) 10 0 0 299 (by decide) (by decide)
    (by decide) (by decide)
  ⟨by decide, h.2.1 (by decide), by decide⟩

/-- Only `monitor_hotkey` sleeps: the Windows pick handler does not. -/
theorem on_hotkey_press_win_no_sleep (env : WinEnv) :
    slept (on_hotkey_press_win env).trace = 0 := by
  obtain ⟨cur, scr, opens⟩ := env
  cases cur with
  | none => rfl
  | some xy =>
      obtain ⟨x, y⟩ := xy
      cases opens <;>
        simp [on_hotkey_press_win, on_hotkey_press, get_pixel_color_win, copy_to_clipboard_win,
          bind, Proc.bind, Proc.emit, pure, Proc.ret, slept]

/-- Only `monitor_hotkey` sleeps: the Linux detector and pick handler do not. -/
theorem linux_no_sleep (env : X11Env) :
    slept (is_hotkey_pressed_linux env).trace = 0 ∧
      slept (on_hotkey_press_linux env).trace = 0 := by
  obtain ⟨hd, kc, ek, cur, pd, px⟩ := env
  constructor
  · cases hd <;>
      simp [is_hotkey_pressed_linux, bind, Proc.bind, Proc.emit, Proc.exit, pure, Proc.ret, slept]
  · cases cur with
    | none => rfl
    | some xy =>
        obtain ⟨x, y⟩ := xy
        cases pd <;>
          simp [on_hotkey_press_linux, on_hotkey_press, get_pixel_color_linux,
            copy_to_clipboard_linux, bind, Proc.bind, Proc.emit, Proc.exit, pure, Proc.ret, slept]

/-- The sleeps of one iteration, for a detector and a handler that do not sleep. -/
theorem monitor_iteration_slept (det : Proc Bool) (handler : Proc Unit)
    (hd : slept det.trace = 0) (hh : slept handler.trace = 0) :
    (det.result = some false →
      (monitor_iteration det handler).trace = det.trace ++ [Effect.sleep_for 10] ∧
      (monitor_iteration det handler).result = some () ∧
      slept (monitor_iteration det handler).trace = 10) ∧
    (det.result = some true → handler.result = some () →
      (monitor_iteration det handler).trace =
        det.trace ++ handler.trace ++ [Effect.sleep_for 300, Effect.sleep_for 10] ∧
      (monitor_iteration det handler).result = some () ∧
      slept (monitor_iteration det handler).trace = 310) ∧
    ((monitor_iteration det handler).result = some () →
      slept (monitor_iteration det handler).trace = 10 ∨
        slept (monitor_iteration det handler).trace = 310) ∧
    slept (monitor_iteration det handler).trace ≤ 310 := by
  obtain ⟨dt, dr⟩ := det
  obtain ⟨ht, hr⟩ := handler
  simp only at hd hh
  rcases dr with _ | _ | _ <;> rcases hr with _ | _ <;>
    simp [monitor_iteration, bind, Proc.bind, Proc.emit, pure, Proc.ret, slept_append, slept,
      hd, hh]

/-- Every iteration of the Windows build completes and sleeps 10 ms when the
hotkey is not pressed and 310 ms when it is. -/
theorem monitor_iteration_win_slept (env : WinEnv) (ctrl alt c : Nat) :
    (monitor_iteration_win env ctrl alt c).result = some () ∧
    slept (monitor_iteration_win env ctrl alt c).trace =
      if is_hotkey_pressed_win ctrl alt c = true then 310 else 10 := by
  have h := monitor_iteration_slept (pure (is_hotkey_pressed_win ctrl alt c))
    (on_hotkey_press_win env) rfl (on_hotkey_press_win_no_sleep env)
  have hres : (on_hotkey_press_win env).result = some () := by
    obtain ⟨cur, scr, opens⟩ := env
    cases cur with
    | none => rfl
    | some xy =>
        obtain ⟨x, y⟩ := xy
        cases opens <;> rfl
  unfold monitor_iteration_win
  cases hp : is_hotkey_pressed_win ctrl alt c
  · have := h.1 (by rw [hp]; rfl)
    rw [hp] at this
    exact ⟨this.2.1, this.2.2⟩
  · have := h.2.1 (by rw [hp]; rfl) hres
    rw [hp] at this
    exact ⟨this.2.1, this.2.2⟩

/-- C7: idle CPU property. The detector and the handler do not sleep themselves.
An iteration of the loop of `monitor_hotkey` in which `is_hotkey_pressed` returns
false sleeps exactly 10 ms; one in which it returns true sleeps 300 ms and then
10 ms after the pick; an iteration that completes has slept at least 10 ms, and no
iteration sleeps more than 310 ms. -/
theorem monitor_iteration_sleeps (det : Proc Bool) (handler : Proc Unit)
    (hd : slept det.trace = 0) (hh : slept handler.trace = 0) :
    (det.result = some false →
      (monitor_iteration det handler).trace = det.trace ++ [Effect.sleep_for 10] ∧
      (monitor_iteration det handler).result = some () ∧
      slept (monitor_iteration det handler).trace = 10) ∧
    (det.result = some true → handler.result = some () →
      (monitor_iteration det handler).trace =
        det.trace ++ handler.trace ++ [Effect.sleep_for 300, Effect.sleep_for 10] ∧
      (monitor_iteration det handler).result = some () ∧
      slept (monitor_iteration det handler).trace = 310) ∧
    ((monitor_iteration det handler).result = some () →
      10 ≤ slept (monitor_iteration det handler).trace) ∧
    slept (monitor_iteration det handler).trace ≤ 310 := by
  obtain ⟨h1, h2, h3, h4⟩ := monitor_iteration_slept det handler hd hh
  refine ⟨h1, h2, ?_, h4⟩
  intro hres
  rcases h3 hres with h | h <;> omega

/-- Witness of C7: a Linux iteration in which the hotkey event arrives and the
pick succeeds. -/
theorem monitor_iteration_sleeps_witness :
    (slept (is_hotkey_pressed_linux
        ⟨true, 54, 54, some (100, 200), true, fun _ _ => 0x102030⟩).trace = 0 ∧
      slept (on_hotkey_press_linux
        ⟨true, 54, 54, some (100, 200), true, fun _ _ => 0x102030⟩).trace = 0) ∧
    slept (monitor_iteration_linux
      ⟨true, 54, 54, some (100, 200), true, fun _ _ => 0x102030⟩).trace = 310 :=
  have h := monitor_iteration_sleeps
    (is_hotkey_pressed_linux ⟨true, 54, 54, some (100, 200), true, fun _ _ => 0x102030⟩)
    (on_hotkey_press_linux ⟨true, 54, 54, some (100, 200), true, fun _ _ => 0x102030⟩)
    (by decide) (by decide)
  ⟨⟨by decide, by decide⟩, (h.2.1 (by decide) (by decide)).2.2⟩

end ColorPicker
